import Mathlib

/-!
# djaigoo/httpclient: a shallow embedding of the request builders and response wrappers

The repository holds two variants of a fluent HTTP request builder:

* `http.go`: the pointer based `request` builder and the `Response` wrapper with a cached body;
* `request.go` with `response.go`: the value based `client` builder and its two field `Response`.

Go strings and byte slices are sequences of bytes (`GoString`); a nil slice, a nil pointer
and a nil error are `none`.  A nil pointer dereference is the fault `Fault.nilDereference`,
so every operation that dereferences a handle returns `Except Fault _`.
The collaborators of the code (the transport, the JSON codec, `http.NewRequest`,
the cookie reader) are parameters; `net/url.Values`, `net/http.Header` and `io.ReadAll`
are modelled after the Go standard library.
-/

set_option autoImplicit false

namespace HttpClient

/-! ## Go values -/

/-- Go `string` and the contents of a `[]byte`: a sequence of bytes. -/
abbrev GoString := List UInt8

/-- The bytes of a literal. -/
def str (s : String) : GoString := s.toUTF8.data.toList

/-- Go `error` value with its message; the nil error is `none : Option GoError`. -/
structure GoError where
  msg : GoString
deriving DecidableEq, Repr

/-- Model of `errors.New(msg)`: an error whose message is `msg`. -/
def errorsNew (msg : GoString) : GoError := ⟨msg⟩

/-- Run time faults of the Go code. -/
inductive Fault where
  | nilDereference
deriving DecidableEq, Repr

/-- Model of `strconv.Itoa`. -/
def Itoa (n : Int) : GoString := str (toString n)

/-! ## Go maps from strings to string lists (`url.Values`, `http.Header`) -/

/-- Go `map[string][]string` as an association list; the first entry of a key is its value. -/
abbrev GoMap := List (GoString × List GoString)

/-- Lookup `m[k]` with presence: `none` when the key is missing. -/
def mapLookup {β : Type} : List (GoString × β) → GoString → Option β
  | [], _ => none
  | (k', vs) :: rest, k => if k' = k then some vs else mapLookup rest k

/-- Go `m[k]`: the nil (empty) list when the key is missing. -/
def mapGet (m : GoMap) (k : GoString) : List GoString := (mapLookup m k).getD []

/-- Go `m[k] = vs`. -/
def mapSet {β : Type} : List (GoString × β) → GoString → β → List (GoString × β)
  | [], k, vs => [(k, vs)]
  | (k', vs') :: rest, k, vs =>
    if k' = k then (k, vs) :: rest else (k', vs') :: mapSet rest k vs

/-- Go `delete(m, k)`. -/
def mapDel (m : GoMap) (k : GoString) : GoMap := m.filter (fun e => decide (e.1 ≠ k))

/-! ### `net/url` -/

/-- Go `url.Values`. -/
abbrev Values := GoMap

/-- Go `Values.Add`: `v[key] = append(v[key], value)`. -/
def Values.Add (v : Values) (key value : GoString) : Values :=
  mapSet v key (mapGet v key ++ [value])

/-- ASCII letters and digits. -/
def isAlnum (c : UInt8) : Bool :=
  (97 ≤ c && c ≤ 122) || (65 ≤ c && c ≤ 90) || (48 ≤ c && c ≤ 57)

/-- Go `url.shouldEscape(c, encodeQueryComponent)`: everything but letters, digits and `-_.~`. -/
def shouldEscape (c : UInt8) : Bool :=
  !(isAlnum c || c == 45 || c == 95 || c == 46 || c == 126)

/-- Go `upperhex[n]` for a nibble. -/
def upperhex (n : UInt8) : UInt8 := if n < 10 then 48 + n else 55 + n

/-- Go `url.QueryEscape`: a space becomes `+`, an escaped byte becomes `%XX`. -/
def QueryEscape (s : GoString) : GoString :=
  s.flatMap (fun c =>
    if c == 32 then [43]
    else if shouldEscape c then [37, upperhex (c / 16), upperhex (c % 16)]
    else [c])

/-- Go string comparison `a < b`: bytewise lexicographic. -/
def strLess : GoString → GoString → Bool
  | [], [] => false
  | [], _ :: _ => true
  | _ :: _, [] => false
  | a :: as, b :: bs => if a < b then true else if b < a then false else strLess as bs

/-- Insertion of a key into a sorted key list. -/
def insertKey (k : GoString) : List GoString → List GoString
  | [] => [k]
  | k' :: rest => if strLess k' k then k' :: insertKey k rest else k :: k' :: rest

/-- Go `sort.Strings`. -/
def sortKeys (ks : List GoString) : List GoString := ks.foldr insertKey []

/-- Go `Values.Encode`: keys in sorted order, every value of a key as `key=value`,
joined by `&` (the separator is written when the buffer is not empty). -/
def Values.Encode (v : Values) : GoString :=
  (sortKeys (v.map Prod.fst)).foldl
    (fun buf k =>
      (mapGet v k).foldl
        (fun buf val =>
          (if buf.length > 0 then buf ++ [38] else buf) ++ QueryEscape k ++ [61] ++ QueryEscape val)
        buf)
    []

/-! ### `net/http` headers -/

/-- Go `http.Header`. -/
abbrev Header := GoMap

/-- Go `textproto.validHeaderFieldByte`: the token characters of RFC 7230. -/
def validHeaderFieldByte (c : UInt8) : Bool :=
  isAlnum c || c == 33 || c == 35 || c == 36 || c == 37 || c == 38 || c == 39 || c == 42 ||
    c == 43 || c == 45 || c == 46 || c == 94 || c == 95 || c == 96 || c == 124 || c == 126

/-- The case loop of `textproto.canonicalMIMEHeaderKey`: upper case at the start and after
a dash, lower case elsewhere. -/
def canonCase : Bool → GoString → GoString
  | _, [] => []
  | upper, c :: rest =>
    let c' : UInt8 :=
      if upper && 97 ≤ c && c ≤ 122 then c - 32
      else if !upper && 65 ≤ c && c ≤ 90 then c + 32
      else c
    c' :: canonCase (c' == 45) rest

/-- Go `textproto.CanonicalMIMEHeaderKey`: a key with a byte that is no token character is
returned unchanged. -/
def CanonicalMIMEHeaderKey (s : GoString) : GoString :=
  if s.all validHeaderFieldByte then canonCase true s else s

/-- Go `Header.Set`. -/
def Header.Set (h : Header) (key value : GoString) : Header :=
  mapSet h (CanonicalMIMEHeaderKey key) [value]

/-- Go `Header.Add`. -/
def Header.Add (h : Header) (key value : GoString) : Header :=
  mapSet h (CanonicalMIMEHeaderKey key) (mapGet h (CanonicalMIMEHeaderKey key) ++ [value])

/-- Go `Header.Del`. -/
def Header.Del (h : Header) (key : GoString) : Header :=
  mapDel h (CanonicalMIMEHeaderKey key)

/-- Go `Header.Get`: the first value of the key, or the empty string. -/
def Header.Get (h : Header) (key : GoString) : GoString :=
  ((mapGet h (CanonicalMIMEHeaderKey key)).head?).getD []

/-- Go `http.Cookie`, name and value in their sanitised form. -/
structure Cookie where
  Name : GoString
  Value : GoString
deriving DecidableEq, Repr

/-- Go `url.URL`, the parts the builders touch. -/
structure URL where
  Scheme : GoString
  Host : GoString
  Path : GoString
  RawQuery : GoString
deriving DecidableEq, Repr

/-- Go `http.Request` behind the `*http.Request` handle. `Body` is the content of the
`io.ReadCloser`, `none` for a nil body. -/
structure HttpRequest where
  Method : GoString
  URL : URL
  Header : Header
  Body : Option GoString
deriving DecidableEq, Repr

/-- Go `(*http.Request).AddCookie`: appends `name=value` to the `Cookie` header. -/
def HttpRequest.AddCookie (r : HttpRequest) (c : Cookie) : HttpRequest :=
  let s := c.Name ++ str "=" ++ c.Value
  let old := Header.Get r.Header (str "Cookie")
  if old ≠ [] then { r with Header := Header.Set r.Header (str "Cookie") (old ++ str "; " ++ s) }
  else { r with Header := Header.Set r.Header (str "Cookie") s }

/-- Response body stream (`resp.Body`): the bytes still to be delivered, the error that ends
the read (`none` for a clean end of stream), and how often it was closed. -/
structure Body where
  data : GoString
  failure : Option GoError
  closes : Nat
deriving DecidableEq, Repr

/-- Model of `ioutil.ReadAll`: the bytes read (a non-nil slice), the read error, and the
drained stream. -/
def ReadAll (b : Body) : GoString × Option GoError × Body :=
  (b.data, b.failure, { b with data := [] })

/-- Model of `Body.Close`. -/
def Body.Close (b : Body) : Body := { b with closes := b.closes + 1 }

/-- Go `http.Response` behind the `*http.Response` handle. -/
structure HttpResponse where
  Status : GoString
  StatusCode : Int
  Header : Option Header
  Body : Body
deriving DecidableEq, Repr

/-- The underlying `*http.Client`: one round trip gives a response handle and an error. -/
structure Client where
  Do : HttpRequest → Option HttpResponse × Option GoError

/-! ## The JSON codec -/

/-- The JSON codec the builders call (`jsoniter` in `http.go`, `encoding/json` in
`request.go`), with `fmt.Sprintf("%v", _)` for decoded values: `Marshal` gives `([]byte, error)`,
`decodeObject` reads a JSON object into its top level fields, `notPointer` is the error
of an unmarshal whose target is no pointer. -/
structure JsonCodec (Obj Val : Type) where
  Marshal : Obj → Option GoString × Option GoError
  decodeObject : Option GoString → Except GoError (List (GoString × Val))
  notPointer : GoError
  Sprint : Val → GoString

/-- The second argument of `Unmarshal`: a `map[string]interface{}` passed as it is, or a
pointer to it. -/
inductive Target (Val : Type) where
  | value (m : List (GoString × Val))
  | pointer (m : List (GoString × Val))

/-- Model of `jsoniter.Unmarshal(data, target)`: the map after the call and the error.
`Unmarshal` hands the target to `Iterator.ReadVal`, which reports "can only unmarshal into
pointer" and reads nothing when the kind of the target is not `reflect.Ptr`; that error is
what `Unmarshal` returns. Through a pointer the decoded fields are stored in the map. -/
def JsonCodec.Unmarshal {Obj Val : Type} (J : JsonCodec Obj Val) (data : Option GoString) :
    Target Val → List (GoString × Val) × Option GoError
  | .value m => (m, some J.notPointer)
  | .pointer m =>
    match J.decodeObject data with
    | .ok fields => (fields.foldl (fun m kv => mapSet m kv.1 kv.2) m, none)
    | .error e => (m, some e)

/-! ## `http.go` -/

namespace HttpGo

/-- The `Response` struct of `http.go`; `o` is true once the `sync.Once` has run. -/
structure Response where
  resp : Option HttpResponse
  err : Option GoError
  data : Option GoString
  o : Bool
deriving DecidableEq, Repr

/-- Source: `newResponse` of `http.go`. -/
def newResponse (resp : Option HttpResponse) (err : Option GoError) : Response :=
  { resp := resp, err := err, data := none, o := false }

/-- Source: `Response.Error`. -/
def Response.Error (r : Response) : Option GoError := r.err

/-- Source: `Response.Response` (the raw handle). -/
def Response.RawResponse (r : Response) : Option HttpResponse := r.resp

/-- Source: `Response.Header`; `some []` is the empty non-nil map `http.Header{}`. -/
def Response.Header (r : Response) : Option Header :=
  match r.resp with
  | none => some []
  | some p => p.Header

/-- Source: `Response.Status`. -/
def Response.Status (r : Response) : GoString :=
  match r.resp with
  | none => []
  | some p => p.Status

/-- Source: `Response.StatusCode`. -/
def Response.StatusCode (r : Response) : Int :=
  match r.resp with
  | none => 0
  | some p => p.StatusCode

/-- The body of `r.o.Do(func() {...})` in `ToBytes`, for a present raw response `p`:
read the whole body, close it, keep an earlier error. -/
def Response.readBody (r : Response) (p : HttpResponse) : Response :=
  if r.o then r
  else
    let (d, e, b) := ReadAll p.Body
    { resp := some { p with Body := b.Close }
      err := if r.err = none then e else r.err
      data := some d
      o := true }

/-- Source: `Response.ToBytes`; returns the pair `(data, err)` and the response afterwards. -/
def Response.ToBytes (r : Response) : (Option GoString × Option GoError) × Response :=
  match r.data with
  | some d => ((some d, r.err), r)
  | none =>
    let r1 := match r.resp with
      | some p => r.readBody p
      | none => r
    match r1.err with
    | some e => ((none, some e), r1)
    | none =>
      if r1.StatusCode ≠ 200 then
        let r2 := { r1 with err := some (errorsNew (r1.Status ++ [32] ++ r1.data.getD [])) }
        ((r2.data, r2.err), r2)
      else ((r1.data, r1.err), r1)

/-! ### The `request` builder -/

/-- Source: `ctypeURLEncoded`. -/
def ctypeURLEncoded : GoString := str "application/x-www-form-urlencoded"

/-- Source: `ctypeJson`. -/
def ctypeJson : GoString := str "application/json"

/-- Source: `reqGet`. -/
def reqGet : GoString := str "GET"

/-- Source: `reqPost`. -/
def reqPost : GoString := str "POST"

/-- The `request` struct of `http.go`; `req` is its field `request`, the `*http.Request`
handle. -/
structure request where
  err : Option GoError
  client : Client
  req : Option HttpRequest
  query : Values

/-- Source: `Client.newRequest`; `NewRequest` is `http.NewRequest(rm, u, nil)`, giving the
request handle and the error. -/
def newRequest (NewRequest : GoString → GoString → Option HttpRequest × Option GoError)
    (c : Client) (rm u : GoString) : request :=
  { err := (NewRequest rm u).2, client := c, req := (NewRequest rm u).1, query := [] }

/-- Source: `Client.Get`. -/
def Get (NewRequest : GoString → GoString → Option HttpRequest × Option GoError)
    (c : Client) (url : GoString) : request :=
  newRequest NewRequest c reqGet url

/-- Source: `Client.Post`. -/
def Post (NewRequest : GoString → GoString → Option HttpRequest × Option GoError)
    (c : Client) (url : GoString) : request :=
  newRequest NewRequest c reqPost url

/-- Source: `request.AddQuery`. -/
def request.AddQuery (c : request) (key value : GoString) : request :=
  { c with query := Values.Add c.query key value }

/-- Source: `request.AddQuery4Json`. The unmarshal target is the fresh map itself; the
`range` over the map adds its entries in the order of the association list. -/
def request.AddQuery4Json {Obj Val : Type} (J : JsonCodec Obj Val) (c : request) (obj : Obj) :
    request :=
  let (data, err) := J.Marshal obj
  let c1 := if err ≠ none ∧ c.err = none then { c with err := err } else c
  let (m, err2) := J.Unmarshal data (.value [])
  let c2 := if err2 ≠ none ∧ c1.err = none then { c1 with err := err2 } else c1
  m.foldl (fun c kv => c.AddQuery kv.1 (J.Sprint kv.2)) c2

/-- Source: `request.Header`: dereferences the request handle. -/
def request.Header (c : request) : Except Fault HttpClient.Header :=
  match c.req with
  | none => .error .nilDereference
  | some r => .ok r.Header

/-- The header map returned by `Header()` is the request's own map: a write to it is a
write through the handle. -/
def request.storeHeader (c : request) (h : HttpClient.Header) : request :=
  { c with req := c.req.map (fun r => { r with Header := h }) }

/-- Source: `request.SetHeader`. -/
def request.SetHeader (c : request) (key value : GoString) : Except Fault request := do
  let h ← c.Header
  pure (c.storeHeader (Header.Set h key value))

/-- Source: `request.AddHeader`. -/
def request.AddHeader (c : request) (key value : GoString) : Except Fault request := do
  let h ← c.Header
  pure (c.storeHeader (Header.Add h key value))

/-- Source: `request.SetCookie`. -/
def request.SetCookie (c : request) (cookie : Cookie) : Except Fault request :=
  match c.req with
  | none => .error .nilDereference
  | some r => .ok { c with req := some (r.AddCookie cookie) }

/-- Source: `request.SetBody`. -/
def request.SetBody (c : request) (ct : GoString) (length : Int) (body : Option GoString) :
    Except Fault request :=
  match c.req with
  | none => .error .nilDereference
  | some r => do
    let c1 : request := { c with req := some { r with Body := body } }
    let c2 ← c1.SetHeader (str "Content-Type") ct
    c2.SetHeader (str "Content-Length") (Itoa length)

/-- Source: `request.SetBody4Bytes`; a nil `data` gives an empty buffer. -/
def request.SetBody4Bytes (c : request) (ct : GoString) (data : Option GoString) :
    Except Fault request :=
  c.SetBody ct (data.getD []).length (some (data.getD []))

/-- Source: `request.SetBody4Values`. -/
def request.SetBody4Values (c : request) (v : Values) : Except Fault request :=
  c.SetBody4Bytes ctypeURLEncoded (some (Values.Encode v))

/-- Source: `request.SetBody4Json`. -/
def request.SetBody4Json {Obj Val : Type} (J : JsonCodec Obj Val) (c : request) (obj : Obj) :
    Except Fault request :=
  let (data, err) := J.Marshal obj
  let c1 := if err ≠ none ∧ c.err = none then { c with err := err } else c
  c1.SetBody4Bytes ctypeJson data

/-- Outcome of `Do`: the response wrapper, the builder afterwards, and the requests handed
to the transport during the call. -/
structure DoResult where
  response : Response
  builder : request
  sent : List HttpRequest

/-- Source: `request.Do`. -/
def request.Do (c : request) : Except Fault DoResult :=
  match c.err with
  | some e => .ok { response := newResponse none (some e), builder := c, sent := [] }
  | none =>
    match c.req with
    | none => .error .nilDereference
    | some r =>
      let r' : HttpRequest :=
        { r with URL := { r.URL with RawQuery := r.URL.RawQuery ++ str "&" ++ Values.Encode c.query } }
      let out := c.client.Do r'
      .ok { response := newResponse out.1 out.2, builder := { c with req := some r' },
            sent := [r'] }

/-- The configuration calls of the `request` builder. -/
inductive ConfigOp (Obj : Type) where
  | AddQuery (key value : GoString)
  | AddQuery4Json (obj : Obj)
  | SetHeader (key value : GoString)
  | AddHeader (key value : GoString)
  | SetCookie (cookie : Cookie)
  | SetBody (ct : GoString) (length : Int) (body : Option GoString)
  | SetBody4Bytes (ct : GoString) (data : Option GoString)
  | SetBody4Values (v : Values)
  | SetBody4Json (obj : Obj)

/-- One configuration call on the builder. -/
def request.apply {Obj Val : Type} (J : JsonCodec Obj Val) (c : request) :
    ConfigOp Obj → Except Fault request
  | .AddQuery key value => .ok (c.AddQuery key value)
  | .AddQuery4Json obj => .ok (c.AddQuery4Json J obj)
  | .SetHeader key value => c.SetHeader key value
  | .AddHeader key value => c.AddHeader key value
  | .SetCookie cookie => c.SetCookie cookie
  | .SetBody ct length body => c.SetBody ct length body
  | .SetBody4Bytes ct data => c.SetBody4Bytes ct data
  | .SetBody4Values v => c.SetBody4Values v
  | .SetBody4Json obj => c.SetBody4Json J obj

/-- A chain of configuration calls, left to right; a fault ends the chain. -/
def request.applyAll {Obj Val : Type} (J : JsonCodec Obj Val) (c : request) :
    List (ConfigOp Obj) → Except Fault request
  | [] => .ok c
  | op :: ops =>
    match c.apply J op with
    | .ok c' => c'.applyAll J ops
    | .error f => .error f

/-- A chain of `AddQuery` calls, left to right. -/
def request.addQueries (c : request) (pairs : List (GoString × GoString)) : request :=
  pairs.foldl (fun c p => c.AddQuery p.1 p.2) c

end HttpGo

/-! ## `request.go` and `response.go` -/

namespace RequestGo

/-- The `Response` struct of `response.go`. -/
structure Response where
  resp : Option HttpResponse
  err : Option GoError
deriving DecidableEq, Repr

/-- Source: `newResponse` of `response.go`. -/
def newResponse (resp : Option HttpResponse) (err : Option GoError) : Response :=
  { resp := resp, err := err }

/-- Source: `Response.Error` of `response.go`. -/
def Response.Error (r : Response) : Option GoError := r.err

/-- Source: `Response.Response` of `response.go` (the raw handle). -/
def Response.RawResponse (r : Response) : Option HttpResponse := r.resp

/-- Source: `Response.Headers`; `some []` is the empty non-nil map `http.Header{}`. -/
def Response.Headers (r : Response) : Option Header :=
  match r.resp with
  | none => some []
  | some p => p.Header

/-- Source: `Response.Cookies`: calls `r.resp.Cookies()`, which reads the header of the
raw response through the handle; `readSetCookies` is the cookie reader of `net/http`. -/
def Response.Cookies (readSetCookies : Option Header → List Cookie) (r : Response) :
    Except Fault (List Cookie) :=
  match r.resp with
  | none => .error .nilDereference
  | some p => .ok (readSetCookies p.Header)

/-- Source: `Response.GetCookie`: the first cookie of `Cookies()` with the name. -/
def Response.GetCookie (readSetCookies : Option Header → List Cookie) (r : Response)
    (name : GoString) : Except Fault (Option Cookie) := do
  let cookies ← r.Cookies readSetCookies
  pure (cookies.find? (fun cookie => decide (cookie.Name = name)))

/-- Source: `contentType` of `request.go`. -/
def contentType : GoString := str "Content-Type"

/-- Source: `contentLength` of `request.go`. -/
def contentLength : GoString := str "Content-Length"

/-- Source: `getReq`. -/
def getReq : GoString := str "GET"

/-- Source: `postReq`. -/
def postReq : GoString := str "POST"

/-- The `client` struct of `request.go`; `httpClient` is its field `client`, `req` its field
`request`. -/
structure client where
  err : Option GoError
  httpClient : Client
  req : Option HttpRequest

/-- Source: `newClient`; `DefaultClient` is `http.DefaultClient`. -/
def newClient (NewRequest : GoString → GoString → Option HttpRequest × Option GoError)
    (DefaultClient : Client) (method url : GoString) : client :=
  { err := (NewRequest method url).2, httpClient := DefaultClient,
    req := (NewRequest method url).1 }

/-- Source: `client.Headers`: dereferences the request handle. -/
def client.Headers (c : client) : Except Fault Header :=
  match c.req with
  | none => .error .nilDereference
  | some r => .ok r.Header

/-- The header map returned by `Headers()` is the request's own map: a write to it is a
write through the handle. -/
def client.storeHeader (c : client) (h : Header) : client :=
  { c with req := c.req.map (fun r => { r with Header := h }) }

/-- Source: `client.SetHeader`. -/
def client.SetHeader (c : client) (key value : GoString) : Except Fault client := do
  let h ← c.Headers
  pure (c.storeHeader (Header.Set h key value))

/-- Source: `client.AddHeader`. -/
def client.AddHeader (c : client) (key value : GoString) : Except Fault client := do
  let h ← c.Headers
  pure (c.storeHeader (Header.Add h key value))

/-- Source: `client.DelHeader`. -/
def client.DelHeader (c : client) (key : GoString) : Except Fault client := do
  let h ← c.Headers
  pure (c.storeHeader (Header.Del h key))

/-- Source: `client.SetCookie`. -/
def client.SetCookie (c : client) (cookie : Cookie) : Except Fault client :=
  match c.req with
  | none => .error .nilDereference
  | some r => .ok { c with req := some (r.AddCookie cookie) }

/-- Source: `client.SetBody`; the reader is given by its content, `none` for a nil reader. -/
def client.SetBody (c : client) (body : Option GoString) : Except Fault client :=
  match c.req with
  | none => .error .nilDereference
  | some r => .ok { c with req := some { r with Body := body } }

/-- Outcome of `Do`: the response wrapper, the builder afterwards, and the requests handed
to the transport during the call. -/
structure DoResult where
  response : Response
  builder : client
  sent : List HttpRequest

/-- Source: `client.Do`. -/
def client.Do (c : client) : Except Fault DoResult :=
  match c.err with
  | some e => .ok { response := { resp := none, err := some e }, builder := c, sent := [] }
  | none =>
    match c.req with
    | none => .error .nilDereference
    | some r =>
      let out := c.httpClient.Do r
      .ok { response := newResponse out.1 out.2, builder := c, sent := [r] }

/-- The `postEntity` struct of `request.go`; `toClient` is the embedded `client`. -/
structure postEntity where
  toClient : client

/-- Source: `Post` of `request.go`. -/
def Post (NewRequest : GoString → GoString → Option HttpRequest × Option GoError)
    (DefaultClient : Client) (url : GoString) : postEntity :=
  { toClient := newClient NewRequest DefaultClient postReq url }

/-- Source: `postEntity.Do`. -/
def postEntity.Do (p : postEntity) (ctype : GoString) (data : Option GoString) :
    Except Fault DoResult := do
  let c1 ← p.toClient.SetHeader contentLength (Itoa (data.getD []).length)
  let c2 ← c1.SetHeader contentType ctype
  let c3 ← c2.SetBody (some (data.getD []))
  c3.Do

/-- Source: `postEntity.TextBody`. -/
def postEntity.TextBody (p : postEntity) (data : Option GoString) : Except Fault DoResult :=
  p.Do (str "application/x-www-form-urlencoded") data

/-- Source: `postEntity.ValueBody`. -/
def postEntity.ValueBody (p : postEntity) (v : Values) : Except Fault DoResult :=
  p.TextBody (some (Values.Encode v))

/-- Source: `postEntity.JsonBody`. -/
def postEntity.JsonBody {Obj Val : Type} (J : JsonCodec Obj Val) (p : postEntity) (obj : Obj) :
    Except Fault DoResult :=
  match (J.Marshal obj).2 with
  | some e => .ok { response := newResponse none (some e), builder := p.toClient, sent := [] }
  | none => p.Do (str "application/json") (J.Marshal obj).1

end RequestGo

/-! ## Concrete inputs -/

/-- A 404 response with body `not found`. -/
def resp404 : HttpResponse :=
  { Status := str "404 Not Found", StatusCode := 404, Header := some [],
    Body := { data := str "not found", failure := none, closes := 0 } }

/-- A 200 response whose body read delivers `par` and then fails. -/
def respCut : HttpResponse :=
  { Status := str "200 OK", StatusCode := 200, Header := some [],
    Body := { data := str "par", failure := some ⟨str "unexpected EOF"⟩, closes := 0 } }

/-- A 200 response with body `ok`. -/
def resp200 : HttpResponse :=
  { Status := str "200 OK", StatusCode := 200, Header := some [],
    Body := { data := str "ok", failure := none, closes := 0 } }

/-- A transport that answers every request with `resp200`. -/
def demoClient : Client := { Do := fun _ => (some resp200, none) }

/-- The error of `http.NewRequest` for the URL `:`. -/
def parseError : GoError := ⟨str "parse \":\": missing protocol scheme"⟩

/-- A stand-in for `http.NewRequest` on two URLs: `:` is rejected, any other URL is taken
as a path on `example.com`. -/
def demoNewRequest (rm u : GoString) : Option HttpRequest × Option GoError :=
  if u = str ":" then (none, some parseError)
  else (some { Method := rm, URL := ⟨str "http", str "example.com", u, []⟩, Header := [],
               Body := none }, none)

/-- The request handle `demoNewRequest` makes for `GET /x`. -/
def getX : HttpRequest :=
  { Method := HttpGo.reqGet, URL := ⟨str "http", str "example.com", str "/x", []⟩, Header := [],
    Body := none }

/-- A `POST /x` request handle on which `content-type: text/plain` was set before. -/
def postX : HttpRequest :=
  { Method := HttpGo.reqPost, URL := ⟨str "http", str "example.com", str "/x", []⟩,
    Header := [(str "Content-Type", [str "text/plain"])], Body := none }

/-- Two objects to marshal: one with the single field `a = 1`, one that no codec can
marshal (a channel). -/
inductive DemoObj where
  | fieldA
  | channel
deriving DecidableEq, Repr

/-- The error of marshalling `DemoObj.channel`. -/
def marshalError : GoError := ⟨str "json: unsupported type: chan int"⟩

/-- A codec for `DemoObj`. -/
def demoCodec : JsonCodec DemoObj GoString :=
  { Marshal := fun o =>
      match o with
      | .fieldA => (some (str "\x7b\"a\":1\x7d"), none)
      | .channel => (none, some marshalError)
    decodeObject := fun data =>
      if data = some (str "\x7b\"a\":1\x7d") then .ok [(str "a", str "1")]
      else .error ⟨str "invalid character"⟩
    notPointer := ⟨str "ReadVal: can only unmarshal into pointer"⟩
    Sprint := fun v => v }

/-- A `request` for `GET /x` on which a marshal error was recorded. -/
def failedBuilder : HttpGo.request :=
  { err := some marshalError, client := demoClient, req := some getX, query := [] }

/-- A `request` for `POST /x` without deferred error. -/
def postBuilder : HttpGo.request :=
  { err := none, client := demoClient, req := some postX, query := [] }

/-! ## Lemmas on the map model -/

theorem mapLookup_mapSet_self {β : Type} (m : List (GoString × β)) (k : GoString) (vs : β) :
    mapLookup (mapSet m k vs) k = some vs := by
  induction m with
  | nil => simp [mapSet, mapLookup]
  | cons hd tl ih =>
    obtain ⟨k', vs'⟩ := hd
    by_cases h : k' = k
    · simp [mapSet, mapLookup, h]
    · simp [mapSet, mapLookup, h, ih]

theorem mapLookup_mapSet_ne {β : Type} (m : List (GoString × β)) (k k' : GoString) (vs : β)
    (h : k' ≠ k) : mapLookup (mapSet m k vs) k' = mapLookup m k' := by
  induction m with
  | nil => simp [mapSet, mapLookup, Ne.symm h]
  | cons hd tl ih =>
    obtain ⟨k0, vs0⟩ := hd
    by_cases h0 : k0 = k
    · subst h0
      simp [mapSet, mapLookup, Ne.symm h]
    · by_cases h1 : k0 = k'
      · subst h1
        simp [mapSet, mapLookup, h0]
      · simp [mapSet, mapLookup, h0, h1, ih]

theorem mapGet_Add (v : Values) (key value k : GoString) :
    mapGet (Values.Add v key value) k
      = if key = k then mapGet v k ++ [value] else mapGet v k := by
  unfold Values.Add mapGet
  by_cases h : key = k
  · subst h
    simp [mapLookup_mapSet_self]
  · simp [h, mapLookup_mapSet_ne _ _ _ _ (Ne.symm h)]

theorem str_space : str " " = [32] := by decide

/-! ## The `Response` of `http.go`: `ToBytes` -/

namespace HttpGo

/-- Claim C1 (the code departs from it): after a body read that delivered bytes and then
failed with `e`, the first `ToBytes()` returns nil bytes with `e`, and the second call on the
same response returns the bytes read with `e`: the byte content of the two calls differs. -/
theorem ToBytes_twice_differs_after_read_error (p : HttpResponse) (e : GoError)
    (hfail : p.Body.failure = some e) (hdata : p.Body.data ≠ []) :
    (Response.ToBytes (newResponse (some p) none)).1 = (none, some e) ∧
    (Response.ToBytes (Response.ToBytes (newResponse (some p) none)).2).1
      = (some p.Body.data, some e) ∧
    ((Response.ToBytes (newResponse (some p) none)).1.1).getD []
      ≠ ((Response.ToBytes (Response.ToBytes (newResponse (some p) none)).2).1.1).getD [] := by
  simp [Response.ToBytes, newResponse, Response.readBody, ReadAll, hfail, Ne.symm hdata]

/-- Witness of the theorem of C1: a 200 response whose body read gives `par` and then fails with
`unexpected EOF` returns `(nil, err)` first and `("par", err)` second. -/
theorem ToBytes_twice_differs_after_read_error_witness :
    respCut.Body.failure = some ⟨str "unexpected EOF"⟩ ∧ respCut.Body.data ≠ [] ∧
    (Response.ToBytes (newResponse (some respCut) none)).1
      = (none, some ⟨str "unexpected EOF"⟩) ∧
    (Response.ToBytes (Response.ToBytes (newResponse (some respCut) none)).2).1
      = (some (str "par"), some ⟨str "unexpected EOF"⟩) :=
  ⟨rfl, by decide,
    (ToBytes_twice_differs_after_read_error respCut ⟨str "unexpected EOF"⟩ rfl (by decide)).1,
    (ToBytes_twice_differs_after_read_error respCut ⟨str "unexpected EOF"⟩ rfl (by decide)).2.1⟩

/-- Claim C2 as stated fails: for the 404 response with body `not found` the first
`ToBytes()` returns an error together with bytes that are not nil. -/
theorem ToBytes_404_bytes_not_nil :
    (Response.ToBytes (newResponse (some resp404) none)).1.2 ≠ none ∧
    ¬ (Response.ToBytes (newResponse (some resp404) none)).1.1 = none ∧
    (Response.ToBytes (newResponse (some resp404) none)).1.1 = some (str "not found") := by
  decide

/-- Claim C2, amended: the first `ToBytes()` on a response returns nil bytes with the error
when an error was there before or the body read failed; with a raw response, no such error
and a status code other than 200 it returns the body bytes together with the synthesized
status error; without a raw response and without error it returns nil bytes and the status
error of the empty status; with status code 200 it returns the body bytes and no error. -/
theorem ToBytes_first_call_result (resp : Option HttpResponse) (err : Option GoError) :
    (∀ e, err = some e →
      (Response.ToBytes (newResponse resp err)).1 = (none, some e)) ∧
    (∀ p e, err = none → resp = some p → p.Body.failure = some e →
      (Response.ToBytes (newResponse resp err)).1 = (none, some e)) ∧
    (∀ p, err = none → resp = some p → p.Body.failure = none → p.StatusCode ≠ 200 →
      (Response.ToBytes (newResponse resp err)).1
        = (some p.Body.data, some (errorsNew (p.Status ++ str " " ++ p.Body.data)))) ∧
    (err = none → resp = none →
      (Response.ToBytes (newResponse resp err)).1 = (none, some (errorsNew (str " ")))) ∧
    (∀ p, err = none → resp = some p → p.Body.failure = none → p.StatusCode = 200 →
      (Response.ToBytes (newResponse resp err)).1 = (some p.Body.data, none)) := by
  rw [str_space]
  refine ⟨?_, ?_, ?_, ?_, ?_⟩
  · intro e he
    subst he
    cases resp <;> simp [Response.ToBytes, newResponse, Response.readBody, ReadAll]
  · intro p e he hp hf
    subst he hp
    simp [Response.ToBytes, newResponse, Response.readBody, ReadAll, hf]
  · intro p he hp hf hs
    subst he hp
    simp [Response.ToBytes, newResponse, Response.readBody, ReadAll, hf, Response.StatusCode,
      Response.Status, hs]
  · intro he hp
    subst he hp
    simp [Response.ToBytes, newResponse, Response.StatusCode, Response.Status]
  · intro p he hp hf hs
    subst he hp
    simp [Response.ToBytes, newResponse, Response.readBody, ReadAll, hf, Response.StatusCode, hs]

/-- Witness of the amended C2 at the 404 response with body `not found`. -/
theorem ToBytes_first_call_result_witness :
    resp404.Body.failure = none ∧ resp404.StatusCode ≠ 200 ∧
    (Response.ToBytes (newResponse (some resp404) none)).1
      = (some (str "not found"), some (errorsNew (str "404 Not Found not found"))) :=
  ⟨rfl, by decide,
    ((ToBytes_first_call_result (some resp404) none).2.2.1 resp404 rfl rfl rfl
      (by decide)).trans (by decide)⟩

/-- Claim C3: with a raw response, no error before the call and a body read without error,
the first `ToBytes()` returns an error whose message is the status line, one space and the
body bytes when the status code is not 200, and no error (the response keeps none) when the
status code is 200. -/
theorem ToBytes_status_error (p : HttpResponse) (hread : p.Body.failure = none) :
    (p.StatusCode ≠ 200 →
      (Response.ToBytes (newResponse (some p) none)).1.2
        = some (errorsNew (p.Status ++ str " " ++ p.Body.data)) ∧
      ((Response.ToBytes (newResponse (some p) none)).2).Error
        = some (errorsNew (p.Status ++ str " " ++ p.Body.data))) ∧
    (p.StatusCode = 200 →
      (Response.ToBytes (newResponse (some p) none)).1.2 = none ∧
      ((Response.ToBytes (newResponse (some p) none)).2).Error = none) := by
  rw [str_space]
  constructor
  · intro hs
    simp [Response.ToBytes, newResponse, Response.readBody, ReadAll, hread, Response.StatusCode,
      Response.Status, Response.Error, hs]
  · intro hs
    simp [Response.ToBytes, newResponse, Response.readBody, ReadAll, hread, Response.StatusCode,
      Response.Error, hs]

/-- Witness of C3: status `404 Not Found` with body `not found` gives the message
`404 Not Found not found`. -/
theorem ToBytes_status_error_witness :
    resp404.Body.failure = none ∧ resp404.StatusCode ≠ 200 ∧
    ((Response.ToBytes (newResponse (some resp404) none)).1.2).map GoError.msg
      = some (str "404 Not Found not found") :=
  ⟨rfl, by decide,
    by rw [((ToBytes_status_error resp404 rfl).1 (by decide)).1]; decide⟩

end HttpGo

/-! ## Responses without a raw response handle -/

/-- Claim C10 (the code departs from it in the cookie accessors): on a response whose raw
handle is absent, `Header()`, `Headers()`, `Status()` and `StatusCode()` return the empty
non-nil map, the empty string and 0, while `Cookies()` and `GetCookie(name)` of `response.go`
dereference the absent handle and fault. -/
theorem absent_handle_accessors (readSetCookies : Option Header → List Cookie)
    (err : Option GoError) (name : GoString) :
    (HttpGo.newResponse none err).Header = some [] ∧
    (HttpGo.newResponse none err).Status = [] ∧
    (HttpGo.newResponse none err).StatusCode = 0 ∧
    (RequestGo.newResponse none err).Headers = some [] ∧
    (RequestGo.newResponse none err).Cookies readSetCookies = .error .nilDereference ∧
    (RequestGo.newResponse none err).GetCookie readSetCookies name = .error .nilDereference :=
  ⟨rfl, rfl, rfl, rfl, rfl, rfl⟩

/-! ## Builders with a deferred error -/

/-- Claim C4: a builder that carries a deferred error `e` (the `request` of `http.go`, the
`client` of `request.go`) returns from `Do()` a response without raw handle whose `Error()`
is `e`; nothing is handed to the transport and the builder, its request handle and query
string included, is as before. -/
theorem Do_with_deferred_error :
    (∀ (c : HttpGo.request) (e : GoError), c.err = some e →
      c.Do = .ok { response := HttpGo.newResponse none (some e), builder := c, sent := [] } ∧
      (HttpGo.newResponse none (some e)).RawResponse = none ∧
      (HttpGo.newResponse none (some e)).Error = some e) ∧
    (∀ (k : RequestGo.client) (e : GoError), k.err = some e →
      k.Do = .ok { response := RequestGo.newResponse none (some e), builder := k, sent := [] } ∧
      (RequestGo.newResponse none (some e)).RawResponse = none ∧
      (RequestGo.newResponse none (some e)).Error = some e) := by
  constructor
  · intro c e h
    simp [HttpGo.request.Do, h, HttpGo.newResponse, HttpGo.Response.RawResponse,
      HttpGo.Response.Error]
  · intro k e h
    simp [RequestGo.client.Do, h, RequestGo.newResponse, RequestGo.Response.RawResponse,
      RequestGo.Response.Error]

/-- Witness of C4: the builders made from the URL `:` carry the parse error, and `Do()`
returns it without a send. -/
theorem Do_with_deferred_error_witness :
    (HttpGo.Get demoNewRequest demoClient (str ":")).err = some parseError ∧
    (HttpGo.Get demoNewRequest demoClient (str ":")).Do
      = .ok { response := HttpGo.newResponse none (some parseError),
              builder := HttpGo.Get demoNewRequest demoClient (str ":"), sent := [] } ∧
    (RequestGo.Post demoNewRequest demoClient (str ":")).toClient.err = some parseError ∧
    (RequestGo.Post demoNewRequest demoClient (str ":")).toClient.Do
      = .ok { response := RequestGo.newResponse none (some parseError),
              builder := (RequestGo.Post demoNewRequest demoClient (str ":")).toClient,
              sent := [] } :=
  ⟨rfl, (Do_with_deferred_error.1 _ parseError rfl).1, rfl,
    (Do_with_deferred_error.2 _ parseError rfl).1⟩

/-- Claim C5 (the code departs from it): on a builder whose URL failed to parse, so that
the request handle is absent, every configuration call that goes through the handle faults
with a nil dereference instead of completing: `SetHeader`, `AddHeader`, `SetCookie`,
`SetBody`, `SetBody4Bytes`, `SetBody4Values`, `SetBody4Json` of `http.go`, and `SetHeader`,
`AddHeader`, `DelHeader`, `SetCookie`, `SetBody`, `TextBody`, `ValueBody` and (for an object
that marshals) `JsonBody` of `request.go`. -/
theorem config_call_on_failed_builder_faults
    (NewRequest : GoString → GoString → Option HttpRequest × Option GoError) (cl : Client)
    (rm u : GoString) (e : GoError) (hfail : NewRequest rm u = (none, some e)) :
    (∀ key value, (HttpGo.newRequest NewRequest cl rm u).SetHeader key value
      = .error .nilDereference) ∧
    (∀ key value, (HttpGo.newRequest NewRequest cl rm u).AddHeader key value
      = .error .nilDereference) ∧
    (∀ cookie, (HttpGo.newRequest NewRequest cl rm u).SetCookie cookie
      = .error .nilDereference) ∧
    (∀ ct length body, (HttpGo.newRequest NewRequest cl rm u).SetBody ct length body
      = .error .nilDereference) ∧
    (∀ ct data, (HttpGo.newRequest NewRequest cl rm u).SetBody4Bytes ct data
      = .error .nilDereference) ∧
    (∀ v, (HttpGo.newRequest NewRequest cl rm u).SetBody4Values v = .error .nilDereference) ∧
    (∀ (Obj Val : Type) (J : JsonCodec Obj Val) (obj : Obj),
      (HttpGo.newRequest NewRequest cl rm u).SetBody4Json J obj = .error .nilDereference) ∧
    (∀ key value, (RequestGo.newClient NewRequest cl rm u).SetHeader key value
      = .error .nilDereference) ∧
    (∀ key value, (RequestGo.newClient NewRequest cl rm u).AddHeader key value
      = .error .nilDereference) ∧
    (∀ key, (RequestGo.newClient NewRequest cl rm u).DelHeader key = .error .nilDereference) ∧
    (∀ cookie, (RequestGo.newClient NewRequest cl rm u).SetCookie cookie
      = .error .nilDereference) ∧
    (∀ body, (RequestGo.newClient NewRequest cl rm u).SetBody body = .error .nilDereference) ∧
    (∀ data, (RequestGo.postEntity.mk (RequestGo.newClient NewRequest cl rm u)).TextBody data
      = .error .nilDereference) ∧
    (∀ v, (RequestGo.postEntity.mk (RequestGo.newClient NewRequest cl rm u)).ValueBody v
      = .error .nilDereference) ∧
    (∀ (Obj Val : Type) (J : JsonCodec Obj Val) (obj : Obj), (J.Marshal obj).2 = none →
      (RequestGo.postEntity.mk (RequestGo.newClient NewRequest cl rm u)).JsonBody J obj
        = .error .nilDereference) := by
  have hc : (HttpGo.newRequest NewRequest cl rm u).req = none := by
    simp [HttpGo.newRequest, hfail]
  have hk : (RequestGo.newClient NewRequest cl rm u).req = none := by
    simp [RequestGo.newClient, hfail]
  refine ⟨?_, ?_, ?_, ?_, ?_, ?_, ?_, ?_, ?_, ?_, ?_, ?_, ?_, ?_, ?_⟩
  · intro key value
    simp [HttpGo.request.SetHeader, HttpGo.request.Header, hc, bind, Except.bind]
  · intro key value
    simp [HttpGo.request.AddHeader, HttpGo.request.Header, hc, bind, Except.bind]
  · intro cookie
    simp [HttpGo.request.SetCookie, hc]
  · intro ct length body
    simp [HttpGo.request.SetBody, hc]
  · intro ct data
    simp [HttpGo.request.SetBody4Bytes, HttpGo.request.SetBody, hc]
  · intro v
    simp [HttpGo.request.SetBody4Values, HttpGo.request.SetBody4Bytes, HttpGo.request.SetBody, hc]
  · intro Obj Val J obj
    have hreq : ∀ (err : Option GoError) (c : HttpGo.request), c.req = none →
        (if err ≠ none ∧ c.err = none then { c with err := err } else c).req = none := by
      intro err c h
      split <;> simp [h]
    simp [HttpGo.request.SetBody4Json, HttpGo.request.SetBody4Bytes, HttpGo.request.SetBody,
      hreq _ _ hc]
  · intro key value
    simp [RequestGo.client.SetHeader, RequestGo.client.Headers, hk, bind, Except.bind]
  · intro key value
    simp [RequestGo.client.AddHeader, RequestGo.client.Headers, hk, bind, Except.bind]
  · intro key
    simp [RequestGo.client.DelHeader, RequestGo.client.Headers, hk, bind, Except.bind]
  · intro cookie
    simp [RequestGo.client.SetCookie, hk]
  · intro body
    simp [RequestGo.client.SetBody, hk]
  · intro data
    simp [RequestGo.postEntity.TextBody, RequestGo.postEntity.Do, RequestGo.client.SetHeader,
      RequestGo.client.Headers, hk, bind, Except.bind]
  · intro v
    simp [RequestGo.postEntity.ValueBody, RequestGo.postEntity.TextBody, RequestGo.postEntity.Do,
      RequestGo.client.SetHeader, RequestGo.client.Headers, hk, bind, Except.bind]
  · intro Obj Val J obj hm
    simp [RequestGo.postEntity.JsonBody, hm, RequestGo.postEntity.Do, RequestGo.client.SetHeader,
      RequestGo.client.Headers, hk, bind, Except.bind]

/-- Witness of the theorem of C5: `Get(":").SetHeader("A", "b")` and `Post(":").TextBody("x")`
fault. -/
theorem config_call_on_failed_builder_faults_witness :
    demoNewRequest HttpGo.reqGet (str ":") = (none, some parseError) ∧
    (HttpGo.Get demoNewRequest demoClient (str ":")).SetHeader (str "A") (str "b")
      = .error .nilDereference ∧
    (RequestGo.postEntity.mk (RequestGo.newClient demoNewRequest demoClient HttpGo.reqGet (str ":"))).TextBody
      (some (str "x")) = .error .nilDereference :=
  ⟨by decide,
    (config_call_on_failed_builder_faults demoNewRequest demoClient HttpGo.reqGet (str ":") parseError
      (by decide)).1 (str "A") (str "b"),
    (config_call_on_failed_builder_faults demoNewRequest demoClient HttpGo.reqGet (str ":") parseError
      (by decide)).2.2.2.2.2.2.2.2.2.2.2.2.1 (some (str "x"))⟩

/-! ## The `request` builder of `http.go` -/

namespace HttpGo

theorem AddQuery4Json_eq {Obj Val : Type} (J : JsonCodec Obj Val) (c : request) (obj : Obj) :
    c.AddQuery4Json J obj
      = if c.err = none then { c with err := some (((J.Marshal obj).2).getD J.notPointer) }
        else c := by
  unfold request.AddQuery4Json
  cases hm : (J.Marshal obj).2 <;> cases hc : c.err <;>
    simp [JsonCodec.Unmarshal, hm, hc]

theorem SetHeader_ok (c : request) (r : HttpRequest) (key value : GoString)
    (hreq : c.req = some r) :
    c.SetHeader key value
      = .ok { c with req := some { r with Header := Header.Set r.Header key value } } := by
  simp [request.SetHeader, request.Header, request.storeHeader, hreq, bind, Except.bind,
    pure, Except.pure]

theorem AddHeader_ok (c : request) (r : HttpRequest) (key value : GoString)
    (hreq : c.req = some r) :
    c.AddHeader key value
      = .ok { c with req := some { r with Header := Header.Add r.Header key value } } := by
  simp [request.AddHeader, request.Header, request.storeHeader, hreq, bind, Except.bind,
    pure, Except.pure]

theorem SetBody_ok (c : request) (r : HttpRequest) (ct : GoString) (length : Int)
    (body : Option GoString) (hreq : c.req = some r) :
    c.SetBody ct length body
      = .ok { c with req := some { r with
          Header := Header.Set (Header.Set r.Header (str "Content-Type") ct)
            (str "Content-Length") (Itoa length)
          Body := body } } := by
  simp [request.SetBody, hreq, request.SetHeader, request.Header, request.storeHeader, bind,
    Except.bind, pure, Except.pure]

theorem apply_keeps_error {Obj Val : Type} (J : JsonCodec Obj Val) (c : request) (e : GoError)
    (r : HttpRequest) (op : ConfigOp Obj) (herr : c.err = some e) (hreq : c.req = some r) :
    ∃ c' r', c.apply J op = .ok c' ∧ c'.err = some e ∧ c'.req = some r' := by
  cases op with
  | AddQuery key value => exact ⟨_, r, rfl, herr, hreq⟩
  | AddQuery4Json obj =>
    refine ⟨_, r, rfl, ?_, ?_⟩ <;> simp [AddQuery4Json_eq, herr, hreq]
  | SetHeader key value =>
    exact ⟨_, { r with Header := Header.Set r.Header key value },
      SetHeader_ok c r key value hreq, herr, rfl⟩
  | AddHeader key value =>
    exact ⟨_, { r with Header := Header.Add r.Header key value },
      AddHeader_ok c r key value hreq, herr, rfl⟩
  | SetCookie cookie =>
    refine ⟨{ c with req := some (r.AddCookie cookie) }, r.AddCookie cookie, ?_, herr, rfl⟩
    simp [request.apply, request.SetCookie, hreq]
  | SetBody ct length body =>
    have h := SetBody_ok c r ct length body hreq
    exact ⟨_, _, h, herr, rfl⟩
  | SetBody4Bytes ct data =>
    have h := SetBody_ok c r ct (data.getD []).length (some (data.getD [])) hreq
    exact ⟨_, _, h, herr, rfl⟩
  | SetBody4Values v =>
    have h := SetBody_ok c r ctypeURLEncoded ((some (Values.Encode v)).getD []).length
      (some ((some (Values.Encode v)).getD [])) hreq
    exact ⟨_, _, h, herr, rfl⟩
  | SetBody4Json obj =>
    have h1 : (if (J.Marshal obj).2 ≠ none ∧ c.err = none then
        { c with err := (J.Marshal obj).2 } else c) = c := by
      simp [herr]
    have h := SetBody_ok c r ctypeJson (((J.Marshal obj).1).getD []).length
      (some (((J.Marshal obj).1).getD [])) hreq
    have h2 : c.apply J (.SetBody4Json obj) = c.SetBody ctypeJson
        (((J.Marshal obj).1).getD []).length (some (((J.Marshal obj).1).getD [])) := by
      simp only [request.apply, request.SetBody4Json, h1]
      rfl
    exact ⟨_, _, h2.trans h, herr, rfl⟩

/-- Claim C6: on a `request` with a present request handle whose deferred error is `e`, every
chain of configuration calls (`AddQuery`, `AddQuery4Json`, `SetHeader`, `AddHeader`,
`SetCookie`, `SetBody`, `SetBody4Bytes`, `SetBody4Values`, `SetBody4Json`, whatever the codec
does with the objects) completes and leaves the deferred error `e`, and `Do()` afterwards
returns a response with exactly `e`, without raw handle and without a send. -/
theorem first_error_wins {Obj Val : Type} (J : JsonCodec Obj Val) (ops : List (ConfigOp Obj))
    (c : request) (e : GoError) (r : HttpRequest) (herr : c.err = some e)
    (hreq : c.req = some r) :
    ∃ c', c.applyAll J ops = .ok c' ∧ c'.err = some e ∧
      c'.Do = .ok { response := newResponse none (some e), builder := c', sent := [] } ∧
      (newResponse none (some e)).Error = some e := by
  induction ops generalizing c r with
  | nil =>
    refine ⟨c, rfl, herr, ?_, rfl⟩
    simp [request.Do, herr]
  | cons op ops ih =>
    obtain ⟨c1, r1, h1, he1, hr1⟩ := apply_keeps_error J c e r op herr hreq
    obtain ⟨c2, h2, he2, hd2, hE⟩ := ih c1 r1 he1 hr1
    refine ⟨c2, ?_, he2, hd2, hE⟩
    simp [request.applyAll, h1, h2]

/-- Witness of C6: the builder for `GET /x` with a recorded marshal error keeps it through
a `SetBody4Json` of an object that cannot be marshalled, an `AddQuery4Json` and a
`SetHeader`. -/
theorem first_error_wins_witness :
    failedBuilder.err = some marshalError ∧ failedBuilder.req = some getX ∧
    Except.map (fun c' => c'.err)
      (failedBuilder.applyAll demoCodec
        [.SetBody4Json .channel, .AddQuery4Json .fieldA, .SetHeader (str "A") (str "b")])
      = .ok (some marshalError) := by
  refine ⟨rfl, rfl, ?_⟩
  obtain ⟨c', h, he, _⟩ := first_error_wins demoCodec
    [.SetBody4Json .channel, .AddQuery4Json .fieldA, .SetHeader (str "A") (str "b")]
    failedBuilder marshalError getX rfl rfl
  rw [h]
  simp [Except.map, he]

/-- Claim C7 (the code departs from it): on a `request` without deferred error,
`AddQuery4Json(obj)` adds no query parameter and records a deferred error for every object:
the marshal error if there is one, else the error of the unmarshal into the map that was
passed without a pointer. -/
theorem AddQuery4Json_records_error {Obj Val : Type} (J : JsonCodec Obj Val) (c : request)
    (obj : Obj) (herr : c.err = none) :
    (c.AddQuery4Json J obj).query = c.query ∧
    (c.AddQuery4Json J obj).err = some (((J.Marshal obj).2).getD J.notPointer) ∧
    (c.AddQuery4Json J obj).err ≠ none := by
  simp [AddQuery4Json_eq, herr]

/-- Witness of the theorem of C7: `Get("/x").AddQuery4Json(obj)` for an object with the field
`a = 1` has an empty query and the unmarshal error. -/
theorem AddQuery4Json_records_error_witness :
    (Get demoNewRequest demoClient (str "/x")).err = none ∧
    ((Get demoNewRequest demoClient (str "/x")).AddQuery4Json demoCodec .fieldA).query = [] ∧
    ((Get demoNewRequest demoClient (str "/x")).AddQuery4Json demoCodec .fieldA).err
      = some ⟨str "ReadVal: can only unmarshal into pointer"⟩ :=
  ⟨by decide,
    (AddQuery4Json_records_error demoCodec (Get demoNewRequest demoClient (str "/x")) .fieldA
      (by decide)).1,
    (AddQuery4Json_records_error demoCodec (Get demoNewRequest demoClient (str "/x")) .fieldA
      (by decide)).2.1⟩

theorem addQueries_fields (c : request) (pairs : List (GoString × GoString)) :
    (c.addQueries pairs).err = c.err ∧ (c.addQueries pairs).req = c.req ∧
    (c.addQueries pairs).client = c.client := by
  induction pairs generalizing c with
  | nil => exact ⟨rfl, rfl, rfl⟩
  | cons p ps ih =>
    have h := ih (c.AddQuery p.1 p.2)
    simpa [request.addQueries, request.AddQuery] using h

theorem addQueries_get (c : request) (pairs : List (GoString × GoString)) (k : GoString) :
    mapGet (c.addQueries pairs).query k
      = mapGet c.query k ++ (pairs.filter (fun p => decide (p.1 = k))).map Prod.snd := by
  induction pairs generalizing c with
  | nil => simp [request.addQueries]
  | cons p ps ih =>
    have h := ih (c.AddQuery p.1 p.2)
    simp only [request.addQueries, List.foldl_cons] at h ⊢
    rw [h]
    simp only [request.AddQuery, mapGet_Add]
    by_cases hk : p.1 = k
    · simp [hk, List.filter_cons]
    · simp [hk, List.filter_cons]

/-- Claim C8: on a `request` with a present request handle and no deferred error, after any
chain of `AddQuery(key, value)` calls `Do()` completes and hands the transport exactly one
request, whose raw query is the original raw query, then `&` (whatever the original raw query
is), then the URL encoding of the accumulated query multimap; in that multimap every key
holds its earlier values followed by all the values added under it in the order of the calls,
so every added pair is present. -/
theorem Do_query_string (c : request) (r : HttpRequest) (pairs : List (GoString × GoString))
    (hreq : c.req = some r) (herr : c.err = none) :
    (∃ d, (c.addQueries pairs).Do = .ok d ∧
      d.sent = [{ r with URL := { r.URL with
        RawQuery := r.URL.RawQuery ++ str "&" ++ Values.Encode (c.addQueries pairs).query } }] ∧
      d.response = newResponse
        (c.client.Do { r with URL := { r.URL with
          RawQuery := r.URL.RawQuery ++ str "&" ++ Values.Encode (c.addQueries pairs).query } }).1
        (c.client.Do { r with URL := { r.URL with
          RawQuery := r.URL.RawQuery ++ str "&" ++ Values.Encode (c.addQueries pairs).query } }).2) ∧
    (∀ k, mapGet (c.addQueries pairs).query k
      = mapGet c.query k ++ (pairs.filter (fun p => decide (p.1 = k))).map Prod.snd) ∧
    (∀ p ∈ pairs, p.2 ∈ mapGet (c.addQueries pairs).query p.1) := by
  obtain ⟨he, hr, hc⟩ := addQueries_fields c pairs
  refine ⟨?_, addQueries_get c pairs, ?_⟩
  · simp [request.Do, he, hr, hc, herr, hreq]
  · intro p hp
    rw [addQueries_get]
    apply List.mem_append_right
    exact List.mem_map_of_mem Prod.snd (List.mem_filter.mpr ⟨hp, by simp⟩)

/-- Witness of C8: `Get("/x").AddQuery("b","x y").AddQuery("a","1").AddQuery("b","2").Do()`
sends one request, with the raw query `&a=1&b=x+y&b=2`. -/
theorem Do_query_string_witness :
    (Get demoNewRequest demoClient (str "/x")).req = some getX ∧
    (Get demoNewRequest demoClient (str "/x")).err = none ∧
    Except.map (fun d => d.sent.map (fun q => q.URL.RawQuery))
      (((Get demoNewRequest demoClient (str "/x")).addQueries
        [(str "b", str "x y"), (str "a", str "1"), (str "b", str "2")]).Do)
      = .ok [str "&a=1&b=x+y&b=2"] := by
  refine ⟨by decide, by decide, ?_⟩
  obtain ⟨d, hd, hs, _⟩ := (Do_query_string (Get demoNewRequest demoClient (str "/x")) getX
    [(str "b", str "x y"), (str "a", str "1"), (str "b", str "2")] (by decide) (by decide)).1
  rw [hd]
  simp only [Except.map, hs]
  exact congrArg Except.ok (by decide)

theorem canonical_content_type :
    CanonicalMIMEHeaderKey (str "Content-Type") = str "Content-Type" := by decide

theorem canonical_content_length :
    CanonicalMIMEHeaderKey (str "Content-Length") = str "Content-Length" := by decide

theorem content_type_ne_content_length : str "Content-Type" ≠ str "Content-Length" := by decide

/-- Claim C9: on a `request` with a present request handle, whatever its headers were,
`SetBody4Values(v)` completes; afterwards the body is the URL encoding of `v`, the
`Content-Type` header is the single value `application/x-www-form-urlencoded`, the
`Content-Length` header is the single value with the decimal byte length of the encoded body,
every other header key is as before, and method, URL, deferred error, client and query of the
builder are unchanged. -/
theorem SetBody4Values_sets_body_and_headers (c : request) (r : HttpRequest) (v : Values)
    (hreq : c.req = some r) :
    ∃ r', c.SetBody4Values v = .ok { c with req := some r' } ∧
      r'.Body = some (Values.Encode v) ∧
      mapLookup r'.Header (str "Content-Type") = some [str "application/x-www-form-urlencoded"] ∧
      mapLookup r'.Header (str "Content-Length") = some [Itoa (Values.Encode v).length] ∧
      (∀ k, k ≠ str "Content-Type" → k ≠ str "Content-Length" →
        mapLookup r'.Header k = mapLookup r.Header k) ∧
      r'.Method = r.Method ∧ r'.URL = r.URL := by
  refine ⟨_, SetBody_ok c r ctypeURLEncoded _ _ hreq, rfl, ?_, ?_, ?_, rfl, rfl⟩
  · simp only [Header.Set, canonical_content_type, canonical_content_length]
    rw [mapLookup_mapSet_ne _ _ _ _ content_type_ne_content_length, mapLookup_mapSet_self]
    rfl
  · simp only [Header.Set, canonical_content_type, canonical_content_length]
    rw [mapLookup_mapSet_self]
    rfl
  · intro k h1 h2
    simp only [Header.Set, canonical_content_type, canonical_content_length]
    rw [mapLookup_mapSet_ne _ _ _ _ h2, mapLookup_mapSet_ne _ _ _ _ h1]

/-- Witness of C9: on the `POST /x` builder with an earlier `text/plain` content type,
`SetBody4Values` of `x = 1, y = 2` gives the body `x=1&y=2`, the form content type and the
content length `7`. -/
theorem SetBody4Values_sets_body_and_headers_witness :
    postBuilder.req = some postX ∧
    Except.map
      (fun c' => c'.req.map (fun q =>
        (q.Body, mapLookup q.Header (str "Content-Type"),
          mapLookup q.Header (str "Content-Length"))))
      (postBuilder.SetBody4Values [(str "y", [str "2"]), (str "x", [str "1"])])
      = .ok (some (some (str "x=1&y=2"), some [str "application/x-www-form-urlencoded"],
          some [str "7"])) := by
  refine ⟨rfl, ?_⟩
  obtain ⟨r', h, hb, hct, hcl, _⟩ := SetBody4Values_sets_body_and_headers postBuilder postX
    [(str "y", [str "2"]), (str "x", [str "1"])] rfl
  rw [h]
  simp only [Except.map, Option.map, hb, hct, hcl]
  exact congrArg Except.ok (by decide)

end HttpGo

end HttpClient
